import Mathlib

/-!
# Verification of the APK upload/analysis service (`app.py`)

A shallow embedding of the Flask service in `src/app.py`: the upload handler
(`upload_file`, lines 22-49), the analysis handler (`analyze`, lines 51-111),
werkzeug's `secure_filename`, POSIX `os.path.join`, and the mitigation rule
table (lines 75-91, 102).

Conventions of the embedding:

* Strings are Lean `String`s; character-level work happens on `List Char`.
* `secure_filename` follows werkzeug's implementation on a POSIX host
  (`os.sep = '/'`, `os.path.altsep = None`, `os.name ≠ "nt"`): NFKD
  normalisation followed by `encode("ascii", "ignore")` is modelled by
  keeping the code points below 128 (on ASCII input — every concrete input
  used below — that composite is the identity, and the path-safety theorem
  is quantified over all post-normalisation strings, so it covers every
  client input).
* `list(set(xs))` (line 102) returns the distinct elements of `xs` in an
  order determined by the interpreter's per-process string hashing.  It is
  modelled by a parameter `e : List String → List String` constrained by
  `isSetEnum`: `e xs` is duplicate-free and has exactly the members of `xs`.
* The filesystem is the list of staged file paths.  `os.path.exists` also
  answers `true` on the upload directory itself, which exists from process
  start (`os.makedirs(UPLOAD_FOLDER, exist_ok=True)`, line 13).
* Exceptions are explicit: the analysis handler's `except` block reads the
  local `filepath` (line 106), which is unbound whenever the exception was
  raised before line 59; that `NameError` escapes the handler and is
  modelled by the outcome `AnalyzeOutcome.crash`.
-/

namespace ApkService

/-! ## werkzeug `secure_filename`, modelled on `List Char` -/

/-- `encode("ascii", "ignore")`: keep code points below 128. -/
def pyAsciiKeep (c : Char) : Bool := c.toNat < 128

/-- ASCII characters on which Python `str.split()` splits
(0x09-0x0D, 0x1C-0x1F, 0x20). -/
def isPySpace (c : Char) : Bool :=
  c.toNat == 32 || (9 ≤ c.toNat && c.toNat ≤ 13) || (28 ≤ c.toNat && c.toNat ≤ 31)

/-- The character class kept by werkzeug's `_filename_ascii_strip_re`,
`[A-Za-z0-9_.-]` (written via code points: `A`..`Z` is 65..90,
`a`..`z` is 97..122, `0`..`9` is 48..57, `_` is 95, `.` is 46, `-` is 45). -/
def allowedChar (c : Char) : Bool :=
  (65 ≤ c.toNat && c.toNat ≤ 90) || (97 ≤ c.toNat && c.toNat ≤ 122) ||
  (48 ≤ c.toNat && c.toNat ≤ 57) || c == '_' || c == '.' || c == '-'

/-- The character set stripped from both ends by `.strip("._")`. -/
def stripChar (c : Char) : Bool := c == '.' || c == '_'

/-- `os.sep` replacement: `filename.replace(os.sep, " ")` on POSIX. -/
def replaceSep (cs : List Char) : List Char :=
  cs.map fun c => if c = '/' then ' ' else c

/-- Helper for `pyWords`: `cur` is the current word, reversed. -/
def pyWordsAux (cur : List Char) : List Char → List (List Char)
  | [] => if cur = [] then [] else [cur.reverse]
  | c :: rest =>
    if isPySpace c then
      if cur = [] then pyWordsAux [] rest else cur.reverse :: pyWordsAux [] rest
    else pyWordsAux (c :: cur) rest

/-- Python `str.split()` with no argument: split on whitespace runs,
dropping empty pieces. -/
def pyWords (cs : List Char) : List (List Char) := pyWordsAux [] cs

/-- `"_".join(words)`. -/
def joinUnderscore : List (List Char) → List Char
  | [] => []
  | [w] => w
  | w :: w2 :: ws => w ++ '_' :: joinUnderscore (w2 :: ws)

/-- `.strip("._")`: drop `.` and `_` from both ends. -/
def stripDotUnderscore (cs : List Char) : List Char :=
  ((cs.dropWhile stripChar).reverse.dropWhile stripChar).reverse

/-- werkzeug `secure_filename` on character lists. -/
def secureFilenameL (cs : List Char) : List Char :=
  stripDotUnderscore
    (List.filter allowedChar
      (joinUnderscore (pyWords (replaceSep (List.filter pyAsciiKeep cs)))))

/-- werkzeug `secure_filename` (POSIX host). -/
def secure_filename (s : String) : String := ⟨secureFilenameL s.data⟩

/-! ## Paths -/

/-- `UPLOAD_FOLDER = './uploads'` (line 12). -/
def UPLOAD_FOLDER : String := "./uploads"

/-- `app.config['MAX_CONTENT_LENGTH'] = 500 * 1024 * 1024` (line 16). -/
def MAX_CONTENT_LENGTH : Nat := 500 * 1024 * 1024

/-- POSIX `os.path.join` for two components. -/
def ospathjoin (a b : String) : String :=
  if b.data.head? = some '/' then b
  else if a.data = [] || a.data.getLast? = some '/' then ⟨a.data ++ b.data⟩
  else ⟨a.data ++ '/' :: b.data⟩

/-- The staging path both handlers build from a client-supplied name
(lines 35-36 and 58-59): `os.path.join(UPLOAD_FOLDER, secure_filename name)`. -/
def stagingPath (name : String) : String :=
  ospathjoin UPLOAD_FOLDER (secure_filename name)

/-- A path is confined to the staging directory: it is the directory itself
(`rest = []`) or a direct child whose name has no separator and is neither
`.` nor `..`. -/
def containedInUploads (p : String) : Prop :=
  ∃ rest : List Char, p.data = "./uploads/".data ++ rest ∧
    (∀ c ∈ rest, c ≠ '/') ∧ rest ≠ ['.'] ∧ rest ≠ ['.', '.']

/-! ## Mitigation rule engine (lines 75-91 and 102) -/

/-- `needle` occurs as a contiguous substring of the second list
(Python's `needle in hay`). -/
def hasSub (needle : List Char) : List Char → Bool
  | [] => needle.isEmpty
  | c :: rest => needle.isPrefixOf (c :: rest) || hasSub needle rest

/-- Python `needle in hay` on strings. -/
def containsSub (needle hay : String) : Bool := hasSub needle.data hay.data

def httpsAdvisory : String := "Ensure secure transmission with HTTPS."

def locationAdvisory : String := "Alert users when accessing location data."

def contactsAdvisory : String := "Limit access to contacts to only necessary features."

def smsAdvisory : String := "Inform users if app accesses or sends SMS messages."

def cameraAdvisory : String := "Implement proper camera access controls and user notifications."

def audioAdvisory : String := "Implement proper audio recording controls and user notifications."

def defaultAdvisory : String := "No specific mitigations needed based on permissions."

/-- The advisories appended for one permission: the six independent `if`
tests of lines 77-88, in source order. -/
def advisoriesFor (perm : String) : List String :=
  (if containsSub "INTERNET" perm then [httpsAdvisory] else []) ++
  (if containsSub "ACCESS_FINE_LOCATION" perm || containsSub "ACCESS_COARSE_LOCATION" perm
    then [locationAdvisory] else []) ++
  (if containsSub "READ_CONTACTS" perm then [contactsAdvisory] else []) ++
  (if containsSub "READ_SMS" perm || containsSub "SEND_SMS" perm then [smsAdvisory] else []) ++
  (if containsSub "CAMERA" perm then [cameraAdvisory] else []) ++
  (if containsSub "RECORD_AUDIO" perm then [audioAdvisory] else [])

/-- The `mitigations` list accumulated by the `for perm in permissions`
loop (lines 75-88). -/
def mitigationsRaw : List String → List String
  | [] => []
  | p :: ps => advisoriesFor p ++ mitigationsRaw ps

/-- Lines 90-91: `if not mitigations: mitigations = [default]`. -/
def mitigationsDefaulted (perms : List String) : List String :=
  if mitigationsRaw perms = [] then [defaultAdvisory] else mitigationsRaw perms

/-- Contract on a model of `list(set(·))`: the result is duplicate-free and
has exactly the members of the input.  CPython satisfies this for every
hash seed; the enumeration order is not otherwise constrained. -/
def isSetEnum (e : List String → List String) : Prop :=
  ∀ xs : List String, (e xs).Nodup ∧ ∀ a : String, a ∈ e xs ↔ a ∈ xs

/-- The mitigation list returned to the client (line 102):
`list(set(mitigations))`, with `e` the set-enumeration of the running
interpreter. -/
def mitigationsFor (e : List String → List String) (perms : List String) : List String :=
  e (mitigationsDefaulted perms)

/-- One concrete valid set-enumeration (keeps the last of equal elements). -/
def enumA (xs : List String) : List String := xs.dedup

/-- Another concrete valid set-enumeration (a different hash seed may
enumerate the same set in reversed order). -/
def enumB (xs : List String) : List String := xs.dedup.reverse

/-! ## The upload handler `upload_file` (lines 22-49)

The request is a multipart upload; `contentLength` is its declared size.
Werkzeug parses the form lazily: the first access to `request.files`
(line 25) raises `RequestEntityTooLarge` when the content length exceeds
`MAX_CONTENT_LENGTH` (line 16); the handler's `except Exception` turns
that into a 500 response.  `filePart` is the declared filename of the
`apk_file` part, or `none` when the part is absent.  `writeOk` says
whether the chunked write (lines 40-45) succeeds; `fs` is the set of
staged file paths before the request. -/

structure UploadEnv where
  contentLength : Nat
  filePart : Option String
  writeOk : Bool
  fs : List String

inductive UploadOutcome where
  /-- 200 with `{'message': ..., 'filename': filename}` (line 47). -/
  | ok (filename : String)
  /-- 400 with `{'error': msg}`. -/
  | clientErr (msg : String)
  /-- 500 with `{'error': msg}` (line 49). -/
  | serverErr (msg : String)
deriving DecidableEq

/-- `str(RequestEntityTooLarge())`, the message jsonified by line 49. -/
def msg413 : String :=
  "413 Request Entity Too Large: The data value transmitted exceeds the capacity limit."

/-- Insert a staged path: a second upload of the same name overwrites
(at most one physical file per path). -/
def fsInsert (p : String) (fs : List String) : List String :=
  if p ∈ fs then fs else p :: fs

/-- The upload handler: response and resulting staged-file set. -/
def upload_file (env : UploadEnv) : UploadOutcome × List String :=
  if env.contentLength > MAX_CONTENT_LENGTH then
    (.serverErr msg413, env.fs)
  else
    match env.filePart with
    | none => (.clientErr "No file provided", env.fs)
    | some declared =>
      if declared = "" then (.clientErr "No file selected", env.fs)
      else if ¬ (".apk".data.isSuffixOf declared.data) then
        (.clientErr "Invalid file type. Please upload an APK file", env.fs)
      else
        if secure_filename declared = "" then
          -- `open('./uploads/', 'wb')` raises IsADirectoryError, caught at line 48
          (.serverErr "IsADirectoryError", env.fs)
        else if env.writeOk then
          (.ok (secure_filename declared), fsInsert (stagingPath declared) env.fs)
        else
          -- `open(..., 'wb')` created/truncated the file before the write failed
          (.serverErr "write failed", fsInsert (stagingPath declared) env.fs)

/-! ## The analysis handler `analyze` (lines 51-111) -/

/-- Outcome of `request.json` (line 54): `parseError` when it raises
(malformed body), else the value of the `filename` key when the body is
truthy and has one. -/
inductive ReqJson where
  | parseError (msg : String)
  | parsed (filename : Option String)

/-- What `AnalyzeAPK` (line 65) exposes of a package. -/
structure ApkInfo where
  app_name : String
  package_name : String
  permissions : List String
deriving DecidableEq

structure AnalyzeEnv where
  json : ReqJson
  /-- Staged file paths at the start of the request. -/
  fs : List String
  /-- `AnalyzeAPK` at the resolved path: metadata, or the raised message. -/
  inspect : Except String ApkInfo
  /-- Whether `os.remove(filepath)` succeeds. -/
  removeOk : Bool
  /-- The interpreter's `list(set(·))` enumeration. -/
  enum : List String → List String

structure AnalysisPayload where
  app_name : String
  package_name : String
  permissions : List String
  mitigations : List String
deriving DecidableEq

inductive AnalyzeOutcome where
  /-- 200 with the analysis JSON (lines 99-103). -/
  | ok (payload : AnalysisPayload)
  /-- 400 with `{'error': msg}` (line 56). -/
  | clientErr (msg : String)
  /-- 404 with `{'error': msg}` (line 62). -/
  | notFound (msg : String)
  /-- 500 with `{'error': msg}` (line 111). -/
  | serverErr (msg : String)
  /-- An exception escaped the handler: the `except` block evaluated
  `os.path.exists(filepath)` (line 106) with `filepath` unbound, raising
  `NameError`. -/
  | crash
deriving DecidableEq

/-- `os.path.exists` restricted to the paths this service touches: a path
exists when it is a staged file, or is the upload directory itself
(created at line 13), with or without the trailing separator. -/
def pathExists (fs : List String) (p : String) : Bool :=
  fs.contains p || p == "./uploads/" || p == "./uploads"

/-- The analysis handler: response and resulting staged-file set. -/
def analyze (env : AnalyzeEnv) : AnalyzeOutcome × List String :=
  match env.json with
  | .parseError _ => (.crash, env.fs)
  | .parsed none => (.clientErr "No filename provided", env.fs)
  | .parsed (some fn) =>
    if ¬ pathExists env.fs (stagingPath fn) then (.notFound "File not found", env.fs)
    else
      match env.inspect with
      | .error msg =>
        -- lines 105-111: `filepath` is bound and exists, so `os.remove`
        -- is attempted; its own failure is swallowed by the bare `except`
        (.serverErr msg,
         if env.removeOk then env.fs.erase (stagingPath fn) else env.fs)
      | .ok info =>
        -- lines 67-103: success; cleanup at lines 93-97 swallows failure
        (.ok ⟨info.app_name, info.package_name, info.permissions,
              env.enum (mitigationsDefaulted info.permissions)⟩,
         if env.removeOk then env.fs.erase (stagingPath fn) else env.fs)

/-- `true` exactly on the 404 outcome. -/
def isNotFound : AnalyzeOutcome → Bool
  | .notFound _ => true
  | _ => false

/-! ## Concrete permission identifiers used by the testable properties -/

def camPermission : String := "android.permission.CAMERA"

def smsPermission : String := "android.permission.READ_SMS"

def netPermission : String := "android.permission.INTERNET"

/-- The six advisories of the rule table, in table order. -/
def ruleAdvisories : List String :=
  [httpsAdvisory, locationAdvisory, contactsAdvisory, smsAdvisory, cameraAdvisory,
   audioAdvisory]

/-- Everything the engine can ever emit: the six rule advisories and the
default advisory. -/
def advisoryVocab : List String := ruleAdvisories ++ [defaultAdvisory]

/-! ## Generic list lemmas -/

theorem head?_dropWhile_false {α : Type} {p : α → Bool} :
    ∀ {l : List α} {c : α}, (l.dropWhile p).head? = some c → p c = false := by
  intro l
  induction l with
  | nil => intro c h; simp [List.dropWhile] at h
  | cons a t ih =>
    intro c h
    rw [List.dropWhile_cons] at h
    by_cases hp : p a
    · rw [if_pos hp] at h; exact ih h
    · rw [if_neg hp] at h
      simp only [List.head?_cons, Option.some.injEq] at h
      subst h
      exact Bool.eq_false_iff.2 hp

theorem dropWhile_eq_self_of_head {α : Type} {p : α → Bool} {l : List α}
    (h : ∀ c, l.head? = some c → p c = false) : l.dropWhile p = l := by
  cases l with
  | nil => rfl
  | cons a t =>
    rw [List.dropWhile_cons, if_neg]
    exact fun hp => by simp [h a rfl] at hp

theorem head?_append_of_ne_nil {α : Type} {l t : List α} (h : l ≠ []) :
    (l ++ t).head? = l.head? := by
  cases l with
  | nil => exact absurd rfl h
  | cons a l' => rfl

theorem eq_singleton_of_nodup_mem {l : List String} {x : String}
    (hn : l.Nodup) (hm : ∀ a, a ∈ l ↔ a = x) : l = [x] := by
  have hp : l.Perm [x] := by
    rw [List.perm_ext_iff_of_nodup hn (by simp)]
    intro a
    rw [hm a, List.mem_singleton]
  exact List.perm_singleton.1 hp

/-! ## Structure of `secure_filename` output -/

theorem mem_stripDotUnderscore {c : Char} {l : List Char}
    (h : c ∈ stripDotUnderscore l) : c ∈ l := by
  unfold stripDotUnderscore at h
  rw [List.mem_reverse] at h
  have h2 := (List.dropWhile_suffix stripChar).subset h
  rw [List.mem_reverse] at h2
  exact (List.dropWhile_suffix stripChar).subset h2

theorem allowed_of_mem_secureFilenameL {c : Char} {cs : List Char}
    (h : c ∈ secureFilenameL cs) : allowedChar c = true := by
  unfold secureFilenameL at h
  exact List.of_mem_filter (mem_stripDotUnderscore h)

theorem head?_stripDotUnderscore {c : Char} {l : List Char}
    (h : (stripDotUnderscore l).head? = some c) : stripChar c = false := by
  unfold stripDotUnderscore at h
  set l1 := l.dropWhile stripChar with hl1
  obtain ⟨t, ht⟩ := List.dropWhile_suffix (l := l1.reverse) stripChar
  have hdec : l1 = (l1.reverse.dropWhile stripChar).reverse ++ t.reverse := by
    have := congrArg List.reverse ht
    simpa [List.reverse_append] using this.symm
  have hne : (l1.reverse.dropWhile stripChar).reverse ≠ [] := by
    intro hnil
    rw [hnil] at h
    simp at h
  have hhead : l1.head? = some c := by
    rw [hdec, head?_append_of_ne_nil hne, h]
  exact head?_dropWhile_false hhead

theorem getLast?_stripDotUnderscore {c : Char} {l : List Char}
    (h : (stripDotUnderscore l).getLast? = some c) : stripChar c = false := by
  unfold stripDotUnderscore at h
  rw [List.getLast?_reverse] at h
  exact head?_dropWhile_false h

theorem head?_mem {α : Type} {l : List α} {c : α} (h : l.head? = some c) : c ∈ l := by
  cases l with
  | nil => simp at h
  | cons a t =>
    simp only [List.head?_cons, Option.some.injEq] at h
    subst h
    exact List.mem_cons_self a t

/-! ## C1: staging-path containment -/

theorem allowedChar_ne_slash {c : Char} (h : allowedChar c = true) : c ≠ '/' := by
  intro he
  subst he
  simp [allowedChar] at h

theorem secure_filename_head_not_slash (name : String) :
    (secure_filename name).data.head? ≠ some '/' := by
  intro h
  have hm : '/' ∈ (secure_filename name).data := head?_mem h
  exact allowedChar_ne_slash (allowed_of_mem_secureFilenameL hm) rfl

theorem ospathjoin_uploads (b : String) (hb : b.data.head? ≠ some '/') :
    ospathjoin UPLOAD_FOLDER b = ⟨"./uploads".data ++ '/' :: b.data⟩ := by
  unfold ospathjoin
  rw [if_neg hb, if_neg (by decide)]
  rfl

/-- C1: for every client-supplied filename — `../../etc/passwd`, absolute
paths, the empty string included — the staging path that both the upload
handler (lines 35-36) and the analysis handler (lines 58-59) build is
confined to the staging directory: it is `./uploads/` followed by a single
component with no path separator that is neither `.` nor `..` (possibly
empty, in which case the path denotes the staging directory itself), so no
file outside the staging directory can be read, written, or deleted
through it. -/
theorem stagingPath_contained (name : String) : containedInUploads (stagingPath name) := by
  unfold stagingPath
  rw [ospathjoin_uploads _ (secure_filename_head_not_slash name)]
  refine ⟨(secure_filename name).data, ?_, ?_, ?_, ?_⟩
  · show "./uploads".data ++ '/' :: (secure_filename name).data =
      "./uploads/".data ++ (secure_filename name).data
    rw [← List.singleton_append, ← List.append_assoc]
    rfl
  · intro c hc
    exact allowedChar_ne_slash (allowed_of_mem_secureFilenameL hc)
  · intro hdot
    have : stripChar '.' = false := head?_stripDotUnderscore (l :=
      List.filter allowedChar
        (joinUnderscore (pyWords (replaceSep (List.filter pyAsciiKeep name.data)))))
      (by rw [show stripDotUnderscore _ = (secure_filename name).data from rfl, hdot]; rfl)
    simp [stripChar] at this
  · intro hdot
    have : stripChar '.' = false := head?_stripDotUnderscore (l :=
      List.filter allowedChar
        (joinUnderscore (pyWords (replaceSep (List.filter pyAsciiKeep name.data)))))
      (by rw [show stripDotUnderscore _ = (secure_filename name).data from rfl, hdot]; rfl)
    simp [stripChar] at this

/-! ## Idempotence of `secure_filename` -/

theorem pyAsciiKeep_of_allowed {c : Char} (h : allowedChar c = true) :
    pyAsciiKeep c = true := by
  simp only [allowedChar, Bool.or_eq_true, Bool.and_eq_true, decide_eq_true_eq,
    beq_iff_eq] at h
  simp only [pyAsciiKeep, decide_eq_true_eq]
  rcases h with ((((h | h) | h) | h) | h) | h
  · omega
  · omega
  · omega
  all_goals subst h; decide

theorem not_space_of_allowed {c : Char} (h : allowedChar c = true) :
    isPySpace c = false := by
  simp only [allowedChar, Bool.or_eq_true, Bool.and_eq_true, decide_eq_true_eq,
    beq_iff_eq] at h
  simp only [isPySpace, Bool.or_eq_false_iff, Bool.and_eq_false_iff,
    beq_eq_false_iff_ne, ne_eq, decide_eq_false_iff_not]
  rcases h with ((((h | h) | h) | h) | h) | h
  · exact ⟨by omega, by omega⟩
  · exact ⟨by omega, by omega⟩
  · exact ⟨by omega, by omega⟩
  all_goals subst h; decide

theorem replaceSep_eq_self {cs : List Char} (h : ∀ c ∈ cs, c ≠ '/') :
    replaceSep cs = cs := by
  induction cs with
  | nil => rfl
  | cons c t ih =>
    show (if c = '/' then ' ' else c) :: replaceSep t = c :: t
    rw [if_neg (h c (List.mem_cons_self c t)),
      ih fun x hx => h x (List.mem_cons_of_mem c hx)]

theorem pyWordsAux_nospace :
    ∀ (cs cur : List Char), (∀ c ∈ cs, isPySpace c = false) →
      pyWordsAux cur cs =
        if cur.reverse ++ cs = [] then [] else [cur.reverse ++ cs] := by
  intro cs
  induction cs with
  | nil =>
    intro cur _
    show (if cur = [] then [] else [cur.reverse]) = _
    by_cases hcur : cur = []
    · subst hcur; simp
    · rw [if_neg hcur, if_neg (by simp [hcur]), List.append_nil]
  | cons c rest ih =>
    intro cur h
    have hc : isPySpace c = false := h c (List.mem_cons_self c rest)
    show (if isPySpace c then _ else pyWordsAux (c :: cur) rest) = _
    rw [if_neg (by simp [hc]),
      ih (c :: cur) fun x hx => h x (List.mem_cons_of_mem c hx)]
    rw [if_neg (by simp), if_neg (by simp)]
    simp [List.reverse_cons, List.append_assoc]

theorem pyWords_nospace {cs : List Char} (h : ∀ c ∈ cs, isPySpace c = false)
    (hne : cs ≠ []) : pyWords cs = [cs] := by
  unfold pyWords
  rw [pyWordsAux_nospace cs [] h]
  simp [hne]

theorem stripDotUnderscore_eq_self {cs : List Char}
    (h1 : ∀ c, cs.head? = some c → stripChar c = false)
    (h2 : ∀ c, cs.getLast? = some c → stripChar c = false) :
    stripDotUnderscore cs = cs := by
  unfold stripDotUnderscore
  rw [dropWhile_eq_self_of_head h1]
  rw [dropWhile_eq_self_of_head (by intro c hc; rw [List.head?_reverse] at hc; exact h2 c hc)]
  exact List.reverse_reverse cs

theorem secureFilenameL_eq_self {cs : List Char}
    (h1 : ∀ c ∈ cs, allowedChar c = true)
    (h2 : ∀ c, cs.head? = some c → stripChar c = false)
    (h3 : ∀ c, cs.getLast? = some c → stripChar c = false) :
    secureFilenameL cs = cs := by
  cases hcs : cs with
  | nil => rfl
  | cons a t =>
    rw [← hcs]
    have hcs' : cs ≠ [] := by rw [hcs]; exact List.cons_ne_nil a t
    unfold secureFilenameL
    rw [List.filter_eq_self.2 fun c hc => pyAsciiKeep_of_allowed (h1 c hc)]
    rw [replaceSep_eq_self fun c hc => allowedChar_ne_slash (h1 c hc)]
    rw [pyWords_nospace (fun c hc => not_space_of_allowed (h1 c hc)) hcs']
    show stripDotUnderscore (List.filter allowedChar cs) = cs
    rw [List.filter_eq_self.2 h1]
    exact stripDotUnderscore_eq_self h2 h3

theorem secureFilenameL_idem (cs : List Char) :
    secureFilenameL (secureFilenameL cs) = secureFilenameL cs :=
  secureFilenameL_eq_self
    (fun _ hc => allowed_of_mem_secureFilenameL hc)
    (fun _ hc => head?_stripDotUnderscore hc)
    (fun _ hc => getLast?_stripDotUnderscore hc)

/-- Re-sanitising the name returned by the upload handler changes
nothing: `secure_filename` is idempotent. -/
theorem secure_filename_idem (s : String) :
    secure_filename (secure_filename s) = secure_filename s :=
  congrArg String.mk (secureFilenameL_idem s.data)

/-! ## Mitigation engine lemmas -/

theorem isSetEnum_enumA : isSetEnum enumA :=
  fun xs => ⟨List.nodup_dedup xs, fun _ => List.mem_dedup⟩

theorem isSetEnum_enumB : isSetEnum enumB := by
  intro xs
  constructor
  · exact (List.nodup_reverse).2 (List.nodup_dedup xs)
  · intro a
    rw [enumB, List.mem_reverse, List.mem_dedup]

theorem mem_mitigationsRaw {a : String} {l : List String} :
    a ∈ mitigationsRaw l ↔ ∃ p ∈ l, a ∈ advisoriesFor p := by
  induction l with
  | nil => simp [mitigationsRaw]
  | cons p ps ih => simp [mitigationsRaw, ih]

theorem mem_ite_singleton {c : Prop} [Decidable c] {a x : String}
    (h : a ∈ (if c then [x] else [])) : a = x := by
  by_cases hc : c
  · rw [if_pos hc] at h; exact List.mem_singleton.1 h
  · rw [if_neg hc] at h; exact absurd h (List.not_mem_nil a)

theorem advisoriesFor_subset_rules {a p : String} (h : a ∈ advisoriesFor p) :
    a ∈ ruleAdvisories := by
  unfold advisoriesFor at h
  simp only [List.mem_append] at h
  rcases h with ((((h | h) | h) | h) | h) | h <;>
    rw [mem_ite_singleton h] <;> simp [ruleAdvisories]

theorem default_not_in_rules : defaultAdvisory ∉ ruleAdvisories := by decide

theorem mitigationsFor_nodup {e : List String → List String} (he : isSetEnum e)
    (perms : List String) : (mitigationsFor e perms).Nodup := (he _).1

theorem mem_mitigationsFor {e : List String → List String} (he : isSetEnum e)
    {a : String} {perms : List String} :
    a ∈ mitigationsFor e perms ↔ a ∈ mitigationsDefaulted perms := (he _).2 a

theorem mitigationsFor_default_of_raw_nil {e : List String → List String}
    (he : isSetEnum e) {perms : List String} (h : mitigationsRaw perms = []) :
    mitigationsFor e perms = [defaultAdvisory] := by
  have hd : mitigationsDefaulted perms = [defaultAdvisory] := by
    unfold mitigationsDefaulted
    rw [if_pos h]
  refine eq_singleton_of_nodup_mem (mitigationsFor_nodup he perms) fun a => ?_
  rw [mem_mitigationsFor he, hd, List.mem_singleton]

/-- C3: whenever the permission loop matched no rule (in particular on the
empty permission set), the response's mitigation list is exactly the
single default advisory (lines 90-91, then `list(set(·))` at 102). -/
theorem mitigations_default_on_no_match (e : List String → List String)
    (he : isSetEnum e) (perms : List String) (h : mitigationsRaw perms = []) :
    mitigationsFor e perms = [defaultAdvisory] :=
  mitigationsFor_default_of_raw_nil he h

/-- Witness for C3: the empty permission set yields exactly the default
advisory. -/
theorem mitigations_default_on_no_match_witness :
    mitigationsFor enumA [] = [defaultAdvisory] :=
  mitigations_default_on_no_match enumA isSetEnum_enumA [] rfl

/-- C4: on any iteration order of the permission set
`{CAMERA, READ_SMS, INTERNET}`, the engine returns exactly the camera, SMS
and HTTPS advisories, each exactly once (the output is a permutation of
those three advisories, whatever the interpreter's set order). -/
theorem mitigations_cam_sms_net (e : List String → List String)
    (he : isSetEnum e) (l : List String)
    (hl : l.Perm [camPermission, smsPermission, netPermission]) :
    (mitigationsFor e l).Perm [cameraAdvisory, smsAdvisory, httpsAdvisory] := by
  have hmemraw : ∀ a, a ∈ mitigationsRaw l ↔
      a ∈ [cameraAdvisory, smsAdvisory, httpsAdvisory] := by
    intro a
    rw [mem_mitigationsRaw]
    constructor
    · rintro ⟨p, hp, ha⟩
      have hp' := hl.mem_iff.1 hp
      have hc : advisoriesFor camPermission = [cameraAdvisory] := by decide
      have hs : advisoriesFor smsPermission = [smsAdvisory] := by decide
      have hn : advisoriesFor netPermission = [httpsAdvisory] := by decide
      fin_cases hp'
      · rw [hc, List.mem_singleton] at ha; subst ha; decide
      · rw [hs, List.mem_singleton] at ha; subst ha; decide
      · rw [hn, List.mem_singleton] at ha; subst ha; decide
    · intro ha
      fin_cases ha
      · exact ⟨camPermission, hl.mem_iff.2 (by decide), by decide⟩
      · exact ⟨smsPermission, hl.mem_iff.2 (by decide), by decide⟩
      · exact ⟨netPermission, hl.mem_iff.2 (by decide), by decide⟩
  have hne : mitigationsRaw l ≠ [] := by
    intro hnil
    have : cameraAdvisory ∈ mitigationsRaw l := (hmemraw _).2 (by decide)
    rw [hnil] at this
    exact List.not_mem_nil _ this
  have hd : mitigationsDefaulted l = mitigationsRaw l := by
    unfold mitigationsDefaulted
    rw [if_neg hne]
  rw [List.perm_ext_iff_of_nodup (mitigationsFor_nodup he l) (by decide)]
  intro a
  rw [mem_mitigationsFor he, hd, hmemraw]

/-- Witness for C4 at the literal permission list and the `enumA`
set-enumeration. -/
theorem mitigations_cam_sms_net_witness :
    (mitigationsFor enumA [camPermission, smsPermission, netPermission]).Perm
      [cameraAdvisory, smsAdvisory, httpsAdvisory] :=
  mitigations_cam_sms_net enumA isSetEnum_enumA _ (List.Perm.refl _)

/-- C5: any permission list with an `INTERNET`-containing identifier —
duplicates included — yields the HTTPS advisory exactly once, and the
returned mitigation list never holds duplicate advisory strings. -/
theorem mitigations_https_once (e : List String → List String) (he : isSetEnum e) :
    (∀ perms : List String, (∃ p ∈ perms, containsSub "INTERNET" p = true) →
      (mitigationsFor e perms).count httpsAdvisory = 1) ∧
    ∀ perms : List String, (mitigationsFor e perms).Nodup := by
  constructor
  · rintro perms ⟨p, hp, hnet⟩
    have hadv : httpsAdvisory ∈ advisoriesFor p := by
      unfold advisoriesFor
      rw [if_pos hnet]
      exact List.mem_append_left _ (List.mem_append_left _ (List.mem_append_left _
        (List.mem_append_left _ (List.mem_append_left _ (List.mem_singleton.2 rfl)))))
    have hraw : httpsAdvisory ∈ mitigationsRaw perms :=
      mem_mitigationsRaw.2 ⟨p, hp, hadv⟩
    have hd : mitigationsDefaulted perms = mitigationsRaw perms := by
      unfold mitigationsDefaulted
      rw [if_neg (List.ne_nil_of_mem hraw)]
    have hmem : httpsAdvisory ∈ mitigationsFor e perms := by
      rw [mem_mitigationsFor he, hd]
      exact hraw
    exact List.count_eq_one_of_mem (mitigationsFor_nodup he perms) hmem
  · exact mitigationsFor_nodup he

/-- Witness for C5: `android.permission.INTERNET` listed twice still
produces the HTTPS advisory exactly once, in a duplicate-free list. -/
theorem mitigations_https_once_witness :
    (mitigationsFor enumA [netPermission, netPermission]).count httpsAdvisory = 1 ∧
    (mitigationsFor enumA [netPermission, netPermission]).Nodup :=
  ⟨(mitigations_https_once enumA isSetEnum_enumA).1 [netPermission, netPermission]
      ⟨netPermission, List.mem_cons_self _ _, by decide⟩,
    (mitigations_https_once enumA isSetEnum_enumA).2 [netPermission, netPermission]⟩

/-- C6 counterexample: two interpreter runs that agree on the input but
enumerate hash sets differently (`enumA` and `enumB` are both legitimate
`list(set(·))` enumerations) return the same advisories in different
orders, so the output list — order included — is not reproducible across
runs.  Line 102's `list(set(mitigations))` discards the fixed iteration
order of lines 76-88. -/
theorem mitigations_order_not_reproducible :
    isSetEnum enumA ∧ isSetEnum enumB ∧
    mitigationsFor enumA [netPermission, camPermission] ≠
      mitigationsFor enumB [netPermission, camPermission] :=
  ⟨isSetEnum_enumA, isSetEnum_enumB, by decide⟩

/-- C6 amended: the engine is deterministic up to the hash-set
enumeration order — two runs on equal permission lists return the same
set of advisories, each exactly once (their outputs are permutations of
one another); only the element order can differ between runs. -/
theorem mitigations_set_reproducible (e1 e2 : List String → List String)
    (h1 : isSetEnum e1) (h2 : isSetEnum e2) (perms : List String) :
    (mitigationsFor e1 perms).Perm (mitigationsFor e2 perms) := by
  rw [List.perm_ext_iff_of_nodup (mitigationsFor_nodup h1 perms)
    (mitigationsFor_nodup h2 perms)]
  intro a
  rw [mem_mitigationsFor h1, mem_mitigationsFor h2]

/-- Witness for the amended C6. -/
theorem mitigations_set_reproducible_witness :
    (mitigationsFor enumA [netPermission, camPermission]).Perm
      (mitigationsFor enumB [netPermission, camPermission]) :=
  mitigations_set_reproducible enumA enumB isSetEnum_enumA isSetEnum_enumB _

/-- C10: every returned advisory comes from the closed vocabulary of the
six rule advisories plus the default advisory, and the default advisory
only ever appears as the sole element of a singleton result. -/
theorem mitigations_vocab (e : List String → List String) (he : isSetEnum e)
    (perms : List String) :
    (∀ a ∈ mitigationsFor e perms, a ∈ advisoryVocab) ∧
    (defaultAdvisory ∈ mitigationsFor e perms →
      mitigationsFor e perms = [defaultAdvisory]) := by
  by_cases hr : mitigationsRaw perms = []
  · have hout : mitigationsFor e perms = [defaultAdvisory] :=
      mitigationsFor_default_of_raw_nil he hr
    constructor
    · intro a ha
      rw [hout, List.mem_singleton] at ha
      subst ha
      exact List.mem_append_right _ (List.mem_singleton.2 rfl)
    · intro _
      exact hout
  · have hd : mitigationsDefaulted perms = mitigationsRaw perms := by
      unfold mitigationsDefaulted
      rw [if_neg hr]
    constructor
    · intro a ha
      rw [mem_mitigationsFor he, hd, mem_mitigationsRaw] at ha
      obtain ⟨p, _, hp⟩ := ha
      exact List.mem_append_left _ (advisoriesFor_subset_rules hp)
    · intro hdef
      rw [mem_mitigationsFor he, hd, mem_mitigationsRaw] at hdef
      obtain ⟨p, _, hp⟩ := hdef
      exact absurd (advisoriesFor_subset_rules hp) default_not_in_rules

/-- Witness for C10 at a camera-only permission list. -/
theorem mitigations_vocab_witness :
    (∀ a ∈ mitigationsFor enumA [camPermission], a ∈ advisoryVocab) ∧
    (defaultAdvisory ∈ mitigationsFor enumA [camPermission] →
      mitigationsFor enumA [camPermission] = [defaultAdvisory]) :=
  mitigations_vocab enumA isSetEnum_enumA [camPermission]

/-! ## C2: the analysis handler's exception handling -/

/-- C2 (code defect): a request whose body `request.json` cannot parse
raises before line 59 binds `filepath`; the `except` block then evaluates
`os.path.exists(filepath)` (line 106) on the unbound local, and the
resulting `NameError` escapes the handler instead of producing the
handler's JSON error response — at this concrete input the handler
crashes (outcome `crash`) and the staged files are untouched. -/
theorem analyze_crashes_before_path_bound :
    analyze ⟨ReqJson.parseError "400 Bad Request: failed to decode JSON object",
             ["./uploads/sample.apk"], Except.error "unused", true, enumA⟩
      = (AnalyzeOutcome.crash, ["./uploads/sample.apk"]) := rfl

/-! ## C7: order of the upload validations -/

/-- C7 counterexample: a multipart request that both exceeds the 500 MiB
ceiling and carries no `apk_file` part.  The claim's order makes
constraint (1) fire first, so it predicts the 400 "No file provided"
validation error; the code instead reports the size violation, because
werkzeug raises `RequestEntityTooLarge` when line 25 first touches
`request.files`, and the handler's `except Exception` (line 48) converts
it to a 500 response.  No file is persisted either way. -/
theorem upload_size_check_precedes :
    upload_file ⟨MAX_CONTENT_LENGTH + 1, none, true, []⟩ = (.serverErr msg413, []) ∧
    UploadOutcome.serverErr msg413 ≠ UploadOutcome.clientErr "No file provided" :=
  ⟨by decide, by decide⟩

/-- C7 amended: within the size ceiling, the handler checks (1) file part
present, (2) declared name non-empty, (3) name ends in `.apk`, in that
order, failing with the corresponding 400 error; the 500 MiB ceiling is
enforced by the framework before any of those checks and surfaces as a
500 response carrying the Request-Entity-Too-Large message.  On every one
of these failures the staged-file set is unchanged: no file is
persisted. -/
theorem upload_validation_order (env : UploadEnv) :
    (env.contentLength > MAX_CONTENT_LENGTH →
      upload_file env = (.serverErr msg413, env.fs)) ∧
    (env.contentLength ≤ MAX_CONTENT_LENGTH → env.filePart = none →
      upload_file env = (.clientErr "No file provided", env.fs)) ∧
    (∀ d, env.contentLength ≤ MAX_CONTENT_LENGTH → env.filePart = some d → d = "" →
      upload_file env = (.clientErr "No file selected", env.fs)) ∧
    (∀ d, env.contentLength ≤ MAX_CONTENT_LENGTH → env.filePart = some d → d ≠ "" →
      (".apk".data.isSuffixOf d.data) = false →
      upload_file env =
        (.clientErr "Invalid file type. Please upload an APK file", env.fs)) := by
  obtain ⟨cl, part, wok, fs⟩ := env
  refine ⟨fun hbig => ?_, fun hsmall hnone => ?_, fun d hsmall hpart hd => ?_,
    fun d hsmall hpart hd hsuf => ?_⟩
  · unfold upload_file
    rw [if_pos hbig]
  · subst hnone
    unfold upload_file
    rw [if_neg (by exact not_lt.2 hsmall)]
  · subst hpart hd
    unfold upload_file
    rw [if_neg (by exact not_lt.2 hsmall)]
    simp
  · subst hpart
    unfold upload_file
    rw [if_neg (by exact not_lt.2 hsmall)]
    show (if d = "" then _ else _) = _
    rw [if_neg hd, if_pos (by simp [hsuf])]

/-- Witness for the amended C7: a well-sized request with no file part is
rejected with the "No file provided" validation error and persists
nothing. -/
theorem upload_validation_order_witness :
    upload_file ⟨0, none, true, []⟩ = (.clientErr "No file provided", []) :=
  (upload_validation_order ⟨0, none, true, []⟩).2.1 (by decide) rfl

/-! ## C8: analyze on a missing staged file -/

theorem stagingPath_data (fn : String) :
    (stagingPath fn).data = "./uploads".data ++ '/' :: (secure_filename fn).data := by
  unfold stagingPath
  rw [ospathjoin_uploads _ (secure_filename_head_not_slash fn)]

theorem data_ne_nil_of_ne_empty {s : String} (h : s ≠ "") : s.data ≠ [] := by
  intro hnil
  exact h (String.ext (by rw [hnil]))

theorem not_contains_of_not_mem {p : String} {fs : List String} (h : p ∉ fs) :
    fs.contains p = false := by
  rw [Bool.eq_false_iff]
  intro hc
  refine h ?_
  have := List.contains_iff_exists_mem_beq.1 hc
  simpa using this

theorem stagingPath_not_exists {fn : String} {fs : List String}
    (h : secure_filename fn ≠ "") (hmem : stagingPath fn ∉ fs) :
    pathExists fs (stagingPath fn) = false := by
  have hdata : (secure_filename fn).data ≠ [] := data_ne_nil_of_ne_empty h
  unfold pathExists
  rw [Bool.or_eq_false_iff, Bool.or_eq_false_iff]
  refine ⟨⟨not_contains_of_not_mem hmem, ?_⟩, ?_⟩
  · rw [beq_eq_false_iff_ne]
    intro heq
    have hd := congrArg String.data heq
    rw [stagingPath_data] at hd
    have hsplit : ("./uploads/" : String).data = "./uploads".data ++ ['/'] := by decide
    rw [hsplit] at hd
    have hcons := List.append_cancel_left hd
    injection hcons with _ htail
    exact hdata htail
  · rw [beq_eq_false_iff_ne]
    intro heq
    have hd := congrArg String.data heq
    rw [stagingPath_data] at hd
    have hsplit : ("./uploads" : String).data = "./uploads".data ++ [] := by decide
    rw [hsplit] at hd
    have hcons := List.append_cancel_left hd
    exact List.cons_ne_nil _ _ hcons

/-- C8 counterexample: the request `{"filename": ""}` against an empty
staging directory.  The re-sanitised name is empty, so no staged file
corresponds to it, yet the handler does not return 404: the resolved path
`./uploads/` passes the `os.path.exists` check because the staging
directory itself exists (line 13), `AnalyzeAPK` is invoked on the
directory and raises, and the handler answers 500 with the inspector's
message. -/
theorem analyze_missing_file_counterexample :
    secure_filename "" = "" ∧
    stagingPath "" ∉ ([] : List String) ∧
    isNotFound (analyze ⟨ReqJson.parsed (some ""), [],
      Except.error "Is a directory", false, enumA⟩).1 = false ∧
    (analyze ⟨ReqJson.parsed (some ""), [],
      Except.error "Is a directory", false, enumA⟩).1 =
      AnalyzeOutcome.serverErr "Is a directory" :=
  ⟨rfl, List.not_mem_nil _, by decide, by decide⟩

/-- C8 amended: for every analyze request whose re-sanitised filename is
non-empty and names no staged file, the handler fails with the 404
"File not found" error, leaves the staged files untouched, and (the
outcome being fixed whatever `inspect` and `removeOk` are) neither
invokes the inspector nor attempts a deletion.  The one exception forced
by the counterexample is a name that sanitises to the empty string, whose
resolved path is the staging directory itself. -/
theorem analyze_missing_file_notFound (env : AnalyzeEnv) (fn : String)
    (hj : env.json = ReqJson.parsed (some fn))
    (hne : secure_filename fn ≠ "")
    (hmem : stagingPath fn ∉ env.fs) :
    analyze env = (AnalyzeOutcome.notFound "File not found", env.fs) := by
  obtain ⟨j, fs, insp, rm, en⟩ := env
  simp only at hj hmem
  subst hj
  show (if ¬ pathExists fs (stagingPath fn) then _ else _) = _
  rw [if_pos (by rw [stagingPath_not_exists hne hmem]; exact Bool.false_ne_true)]

/-- Witness for the amended C8: analyzing `ghost.apk` with nothing staged
yields the 404 error and no filesystem change. -/
theorem analyze_missing_file_notFound_witness :
    analyze ⟨ReqJson.parsed (some "ghost.apk"), [],
      Except.ok ⟨"a", "p", []⟩, true, enumA⟩ =
      (AnalyzeOutcome.notFound "File not found", []) :=
  analyze_missing_file_notFound _ "ghost.apk" rfl (by decide) (List.not_mem_nil _)

/-! ## C9: upload-then-analyze round trip -/

theorem mem_fsInsert_self (p : String) (fs : List String) : p ∈ fsInsert p fs := by
  unfold fsInsert
  split
  · assumption
  · exact List.mem_cons_self p fs

theorem nodup_fsInsert {p : String} {fs : List String} (h : fs.Nodup) :
    (fsInsert p fs).Nodup := by
  unfold fsInsert
  split
  · exact h
  · exact List.nodup_cons.2 ⟨by assumption, h⟩

theorem contains_of_mem {p : String} {fs : List String} (h : p ∈ fs) :
    fs.contains p = true :=
  List.contains_iff_exists_mem_beq.2 ⟨p, h, by simp⟩

theorem stagingPath_secure (d : String) :
    stagingPath (secure_filename d) = stagingPath d := by
  unfold stagingPath
  rw [secure_filename_idem]

/-- The analyze call made on the state a successful upload leaves behind:
the staged file `stagingPath d` is present, the re-sanitised name resolves
to the same path, the inspector succeeds, the cleanup deletes the file. -/
theorem analyze_after_upload (d : String) (fs : List String) (hN : fs.Nodup)
    (info : ApkInfo) (e : List String → List String) :
    (∃ payload,
      (analyze ⟨ReqJson.parsed (some (secure_filename d)),
        fsInsert (stagingPath d) fs, Except.ok info, true, e⟩).1
        = AnalyzeOutcome.ok payload) ∧
    stagingPath (secure_filename d) ∉
      (analyze ⟨ReqJson.parsed (some (secure_filename d)),
        fsInsert (stagingPath d) fs, Except.ok info, true, e⟩).2 := by
  have hmem1 : stagingPath (secure_filename d) ∈ fsInsert (stagingPath d) fs := by
    rw [stagingPath_secure]
    exact mem_fsInsert_self _ _
  have hpe : pathExists (fsInsert (stagingPath d) fs)
      (stagingPath (secure_filename d)) = true := by
    unfold pathExists
    rw [Bool.or_eq_true, Bool.or_eq_true]
    exact Or.inl (Or.inl (contains_of_mem hmem1))
  have hana : analyze ⟨ReqJson.parsed (some (secure_filename d)),
      fsInsert (stagingPath d) fs, Except.ok info, true, e⟩ =
      (AnalyzeOutcome.ok ⟨info.app_name, info.package_name,
        info.permissions, e (mitigationsDefaulted info.permissions)⟩,
       (fsInsert (stagingPath d) fs).erase (stagingPath (secure_filename d))) := by
    show (if ¬ pathExists _ _ then _ else _) = _
    rw [if_neg (not_not_intro hpe)]
    rfl
  rw [hana]
  refine ⟨⟨_, rfl⟩, ?_⟩
  rw [stagingPath_secure]
  exact ((nodup_fsInsert hN).not_mem_erase : stagingPath d ∉ _)

/-- C9: after any successful upload, the filename carried by the 200
response (the sanitised name) resolves in a subsequent analyze call —
re-sanitising it changes nothing and the staged file is found — and once
that analyze call succeeds, the staged path is no longer present on
disk. -/
theorem upload_analyze_roundtrip (uenv : UploadEnv) (hN : uenv.fs.Nodup)
    (f : String) (fs1 : List String)
    (hup : upload_file uenv = (UploadOutcome.ok f, fs1))
    (info : ApkInfo) (e : List String → List String) :
    (∃ payload,
      (analyze ⟨ReqJson.parsed (some f), fs1, Except.ok info, true, e⟩).1
        = AnalyzeOutcome.ok payload) ∧
    stagingPath f ∉
      (analyze ⟨ReqJson.parsed (some f), fs1, Except.ok info, true, e⟩).2 := by
  obtain ⟨cl, part, wok, fs⟩ := uenv
  simp only at hN
  unfold upload_file at hup
  split at hup
  · exact UploadOutcome.noConfusion (congrArg Prod.fst hup)
  · split at hup
    · exact UploadOutcome.noConfusion (congrArg Prod.fst hup)
    · split at hup
      · exact UploadOutcome.noConfusion (congrArg Prod.fst hup)
      · split at hup
        · exact UploadOutcome.noConfusion (congrArg Prod.fst hup)
        · split at hup
          · exact UploadOutcome.noConfusion (congrArg Prod.fst hup)
          · split at hup
            · rw [Prod.mk.injEq] at hup
              obtain ⟨h1, h2⟩ := hup
              injection h1 with hf
              subst hf
              subst h2
              exact analyze_after_upload _ fs hN info e
            · exact UploadOutcome.noConfusion (congrArg Prod.fst hup)

/-- Witness for C9: uploading `sample.apk` and then analyzing the
returned filename succeeds and leaves the staging directory without the
file. -/
theorem upload_analyze_roundtrip_witness :
    (∃ payload,
      (analyze ⟨ReqJson.parsed (some "sample.apk"), ["./uploads/sample.apk"],
        Except.ok ⟨"demo", "com.example.demo", [netPermission]⟩, true, enumA⟩).1
        = AnalyzeOutcome.ok payload) ∧
    stagingPath "sample.apk" ∉
      (analyze ⟨ReqJson.parsed (some "sample.apk"), ["./uploads/sample.apk"],
        Except.ok ⟨"demo", "com.example.demo", [netPermission]⟩, true, enumA⟩).2 :=
  upload_analyze_roundtrip ⟨0, some "sample.apk", true, []⟩ List.nodup_nil
    "sample.apk" ["./uploads/sample.apk"] (by decide)
    ⟨"demo", "com.example.demo", [netPermission]⟩ enumA

end ApkService
